import Mathlib

/-
Verification development for the flow-cli excerpt: the transaction
role-resolution step of the send command (internal/transactions/send.go),
the gRPC gateway (pkg/flowcli/gateway/grpc.go), and the emulator gateway
(unnamed part_001, package gateway).  Go functions are shallowly embedded
as executable Lean definitions; Go runtime panics (out-of-range slice
indexing, nil dereference) are modelled as Option.none, and Go error
returns as Except.error.
-/

namespace FlowCLI

/-- Go error values as they appear in the excerpt: a backend-native gRPC
status error, a flat message built with fmt.Errorf without a percent-w verb,
or a wrapping error built with fmt.Errorf using a percent-w verb, which
keeps the cause chained and retrievable. -/
inductive GoError where
  | grpcStatus : Nat → String → GoError
  | flat : String → GoError
  | wrap : String → GoError → GoError
deriving DecidableEq, Repr

/-- The string returned by the Error method of a Go error value. -/
def errString : GoError → String
  | .grpcStatus c m => "rpc error: code = " ++ toString c ++ " desc = " ++ m
  | .flat m => m
  | .wrap m c => m ++ ": " ++ errString c

/-- status.Convert(err).Message(): for a gRPC status error this is the
status message; any other error is converted to an Unknown status whose
message is the error string. -/
def statusConvertMessage : GoError → String
  | .grpcStatus _ m => m
  | .flat m => m
  | .wrap m c => m ++ ": " ++ errString c

/-- UnwrapStatusError from the emulator gateway (part_001 lines 383-385):
fmt.Errorf(status.Convert(err).Message()) -- always a flat error carrying
only the status message, with no cause chained. -/
def UnwrapStatusError (e : GoError) : GoError :=
  .flat (statusConvertMessage e)

/-- Whether a backend-native gRPC status error is present anywhere in the
error chain (the chain follows wrapped causes, as errors.Unwrap would). -/
def containsBackendError : GoError → Bool
  | .grpcStatus _ _ => true
  | .flat _ => false
  | .wrap _ c => containsBackendError c

/-- flow.TransactionStatus values. -/
inductive TxStatus where
  | unknown | pending | finalized | executed | sealed | expired
deriving DecidableEq, Repr

/-- flow.TransactionResult: the status plus an optional execution error
message. -/
structure TxResult where
  status : TxStatus
  errMsg : Option String := none
deriving DecidableEq, Repr

/-- GrpcGateway.GetTransactionResult (grpc.go lines 129-141) over an
explicit trace of successive client poll responses.  Each list element is
what one call of client.GetTransactionResult returns.  The Go code
returns the first error as-is; on a non-sealed result with waitSeal it
sleeps one second and recurses, issuing another poll.  The empty trace
means the function is still polling and has not returned (the Go code
would issue yet another RPC), modelled as none.  The function takes no
cancellation input because the Go method consults none: its context is
fixed to context.Background() at construction. -/
def grpcGetTransactionResult (waitSeal : Bool) :
    List (Except GoError TxResult) → Option (Except GoError TxResult)
  | [] => none
  | .error e :: _ => some (.error e)
  | .ok r :: rest =>
    if r.status ≠ TxStatus.sealed ∧ waitSeal = true then
      grpcGetTransactionResult waitSeal rest
    else
      some (.ok r)

/-- Number of poll RPCs issued against the supplied trace by
GrpcGateway.GetTransactionResult. -/
def grpcPollCount (waitSeal : Bool) : List (Except GoError TxResult) → Nat
  | [] => 0
  | .error _ :: _ => 1
  | .ok r :: rest =>
    if r.status ≠ TxStatus.sealed ∧ waitSeal = true then
      1 + grpcPollCount waitSeal rest
    else
      1

/-- EmulatorGateway.GetTransactionResult (part_001 lines 476-482),
parameterised by the backend result for the queried identifier.  The
waitSeal flag is accepted and then never read: the backend result is
returned after error unwrapping, whatever its status. -/
def emulatorGetTransactionResult (backendResult : Except GoError TxResult)
    (waitSeal : Bool) : Except GoError TxResult :=
  match backendResult with
  | .error e => .error (UnwrapStatusError e)
  | .ok r => .ok r

/-- A key on a fetched account: its key index and current sequence number
(flow.AccountKey fields used by the excerpt). -/
structure AccountKey where
  index : Nat
  seqNum : Nat
deriving DecidableEq, Repr

/-- A flow.Account as returned by GetAccount: address plus the ordered
key list. -/
structure FetchedAccount where
  address : Nat
  keys : List AccountKey
deriving DecidableEq, Repr

/-- A flow.BlockHeader, reduced to the identifier field the excerpt
reads. -/
structure BlockHeader where
  id : Nat
deriving DecidableEq, Repr

/-- The fields of a staged project.Transaction that
GrpcGateway.PrepareTransactionPayload reads and writes: the mutable
gasLimit / referenceBlockID / proposalKey of the underlying
flow.Transaction, plus the signer account address, the signer's default
key index (tx.Signer().DefaultKey().Index()) and the optional proposer
account address (tx.Proposer()). -/
structure Transaction where
  gasLimit : Nat
  refBlockID : Nat
  proposalKey : Option (Nat × Nat × Nat)
  signerAddress : Nat
  signerKeyIndex : Nat
  proposerAddress : Option Nat
deriving DecidableEq, Repr

/-- grpc.go lines 71-74: the proposal address is the proposer account
address when a proposer is set, else the signer account address. -/
def proposalAddress (tx : Transaction) : Nat :=
  tx.proposerAddress.getD tx.signerAddress

/-- The network as seen through the gRPC client calls that
PrepareTransactionPayload makes: GetAccountAtLatestBlock and
GetLatestBlockHeader with isSealed set to true. -/
structure Network where
  getAccount : Nat → Except GoError FetchedAccount
  getLatestSealedHeader : Except GoError BlockHeader

/-- grpc.go line 35. -/
def defaultGasLimit : Nat := 1000

/-- GrpcGateway.GetAccount (grpc.go lines 60-67), parameterised by the
client result: a client error is wrapped with context using a percent-w
verb, keeping the native error chained. -/
def grpcGetAccount (clientResult : Except GoError FetchedAccount)
    (address : Nat) : Except GoError FetchedAccount :=
  match clientResult with
  | .error e =>
    .error (.wrap ("failed to get account with address " ++ toString address) e)
  | .ok a => .ok a

/-- GrpcGateway.GetTransaction (grpc.go lines 124-126): the client result,
error included, is returned unchanged. -/
def grpcGetTransaction (clientResult : Except GoError Transaction) :
    Except GoError Transaction :=
  clientResult

/-- EmulatorGateway.GetAccount (part_001 lines 460-466), parameterised by
the backend result: a backend error is unwrapped to a flat message. -/
def emulatorGetAccount (backendResult : Except GoError FetchedAccount) :
    Except GoError FetchedAccount :=
  match backendResult with
  | .error e => .error (UnwrapStatusError e)
  | .ok a => .ok a

/-- GrpcGateway.PrepareTransactionPayload (grpc.go lines 70-94).  Steps,
in source order: fetch the proposal account through GetAccount (an error
is returned as-is, already wrapped by GetAccount); index its key list by
the signer's default key index (Go slice indexing -- out of range is a
runtime panic, modelled as none); fetch the latest sealed block header
(an error is wrapped); then set referenceBlockID to the sealed header id,
set gasLimit to defaultGasLimit unconditionally, and set the proposal key
from the indexed key. -/
def prepareTransactionPayload (net : Network) (tx : Transaction) :
    Option (Except GoError Transaction) :=
  match grpcGetAccount (net.getAccount (proposalAddress tx)) (proposalAddress tx) with
  | .error e => some (.error e)
  | .ok proposer =>
    match proposer.keys.get? tx.signerKeyIndex with
    | none => none
    | some proposerKey =>
      match net.getLatestSealedHeader with
      | .error e => some (.error (.wrap "failed to get latest sealed block" e))
      | .ok sealed =>
        some (.ok { tx with
          refBlockID := sealed.id
          gasLimit := defaultGasLimit
          proposalKey := some (proposalAddress tx, proposerKey.index, proposerKey.seqNum) })

/-- An account from the configuration state (flowkit.Account, reduced to
the fields the send command reads). -/
structure ConfigAccount where
  name : String
  address : Nat
deriving DecidableEq, Repr

/-- state.Accounts().ByName: lookup of an account by name in the
configuration state; none models the not-found error. -/
def byName (accounts : List ConfigAccount) (name : String) :
    Option ConfigAccount :=
  accounts.find? (fun a => a.name == name)

/-- The role-relevant fields of flagsSend (send.go lines 33-42).  The
field spelled autorizer mirrors the source's Autorizer field.  The other
fields of the Go struct (ArgsJSON, Arg, Include, Exclude) feed argument
parsing and output shaping, not role resolution. -/
structure FlagsSend where
  signer : String
  proposer : String
  payer : String
  autorizer : List String
deriving DecidableEq, Repr

/-- The payer field of the build command's flags struct.  The struct
itself is declared in another file of the same Go package (not part of
the excerpt); send.go line 79 reads buildFlags.Payer from it. -/
structure FlagsBuild where
  payer : String
deriving DecidableEq, Repr

/-- Errors produced by the role-resolution part of send.  Each
constructor abstracts the corresponding fmt.Errorf message, which names
the role and, for lookups, the unresolved account name. -/
inductive SendError where
  | proposerNotFound : String → SendError
  | payerNotFound : String → SendError
  | authorizerNotFound : String → SendError
  | signerNotFound : String → SendError
  | roleConflict : SendError
deriving DecidableEq, Repr

/-- The resolved roles: proposer, payer and the ordered authorizer
list. -/
structure TransactionRoles where
  proposer : Option ConfigAccount
  payer : Option ConfigAccount
  authorizers : List ConfigAccount
deriving DecidableEq, Repr

/-- The shared shape of the proposer and payer lookups in send.go
(lines 71-85): an empty name resolves to no account, a non-empty name
must be found in the configuration. -/
def resolveOptional (accounts : List ConfigAccount) (name : String)
    (mkErr : String → SendError) : Except SendError (Option ConfigAccount) :=
  if name = "" then .ok none
  else
    match byName accounts name with
    | none => .error (mkErr name)
    | some a => .ok (some a)

/-- The authorizer loop of send.go lines 87-93: each name is resolved in
input order and the first failure aborts. -/
def resolveAuthorizers (accounts : List ConfigAccount) :
    List String → Except SendError (List ConfigAccount)
  | [] => .ok []
  | n :: rest =>
    match byName accounts n with
    | none => .error (SendError.authorizerNotFound n)
    | some a =>
      match resolveAuthorizers accounts rest with
      | .error e => .error e
      | .ok l => .ok (a :: l)

/-- The role-resolution portion of send (send.go lines 64-108).  Note the
payer name is read from the build command's flags (send.go line 79 reads
buildFlags.Payer), while proposer, authorizers and signer come from the
send command's own flags.  When the signer name is non-empty, any
already-resolved proposer or payer or any resolved authorizer is a
conflict; otherwise the signer account becomes proposer, payer and sole
authorizer.  On error the Go function returns before any transaction is
built or submitted. -/
def send (sf : FlagsSend) (bf : FlagsBuild) (accounts : List ConfigAccount) :
    Except SendError TransactionRoles :=
  match resolveOptional accounts sf.proposer SendError.proposerNotFound with
  | .error e => .error e
  | .ok proposer =>
    match resolveOptional accounts bf.payer SendError.payerNotFound with
    | .error e => .error e
    | .ok payer =>
      match resolveAuthorizers accounts sf.autorizer with
      | .error e => .error e
      | .ok authorizers =>
        if sf.signer ≠ "" then
          if proposer.isSome ∨ payer.isSome ∨ authorizers ≠ [] then
            .error SendError.roleConflict
          else
            match byName accounts sf.signer with
            | none => .error (SendError.signerNotFound sf.signer)
            | some signer => .ok ⟨some signer, some signer, [signer]⟩
        else
          .ok ⟨proposer, payer, authorizers⟩

/-- The emulator gateway state relevant to snapshots: the snapshot store
(a Go map from name to emulator handle, modelled as an association list
with unique keys maintained by insertion) and the backend's current
emulator handle, both opaque handles modelled as Nat. -/
structure EmulatorGatewayState where
  snapshots : List (String × Nat)
  backendEmulator : Nat
deriving DecidableEq, Repr

/-- Go map read snapshots[name]: the value stored under the name, if
present. -/
def snapshotLookup (l : List (String × Nat)) (name : String) : Option Nat :=
  (l.find? (fun p => p.1 == name)).map (fun p => p.2)

/-- Go map assignment snapshots[name] = v: replaces the existing entry or
appends a new one. -/
def snapshotInsert : List (String × Nat) → String → Nat → List (String × Nat)
  | [], n, v => [(n, v)]
  | (k, w) :: rest, n, v =>
    if k == n then (k, v) :: rest else (k, w) :: snapshotInsert rest n v

/-- EmulatorGateway.CreateSnapshot (part_001 lines 647-649): stores the
backend's current emulator under the name, silently overwriting any
existing entry. -/
def createSnapshot (g : EmulatorGatewayState) (name : String) :
    EmulatorGatewayState :=
  { g with snapshots := snapshotInsert g.snapshots name g.backendEmulator }

/-- EmulatorGateway.LoadSnapshot (part_001 lines 651-658): a missing name
returns an error and the method returns before touching the backend; a
present name replaces the backend's emulator with the stored handle.  The
result pairs the returned error value with the gateway state after the
call. -/
def loadSnapshot (g : EmulatorGatewayState) (name : String) :
    Except String Unit × EmulatorGatewayState :=
  match snapshotLookup g.snapshots name with
  | none => (.error ("Could not find snapshot with name " ++ name), g)
  | some emu => (.ok (), { g with backendEmulator := emu })

/-- A flowGo block as returned by backend.GetBlockByHeight, reduced to
the fields getBlockEvent reads: block.ID(), block.Header.Height and
block.Header.Timestamp. -/
structure GBlock where
  id : Nat
  height : Nat
  timestamp : Nat
deriving DecidableEq, Repr

/-- One element of the list returned by backend.GetEventsForBlockIDs: a
block identifier together with the events recorded for that block.
Event payloads are opaque; the sdk.FlowEventsToSDK conversion is modelled
as the identity on payloads, which preserves the list length and in
particular emptiness. -/
structure GoBlockEvents where
  blockID : Nat
  events : List Nat
deriving DecidableEq, Repr

/-- The emulator backend as seen through the two calls getBlockEvent
makes.  getBlockByHeight returns none where the Go call returns a nil
block alongside an error that the caller discards; getEventsForBlockID
is backend.GetEventsForBlockIDs applied to a single identifier, whose
error return is likewise discarded by the caller. -/
structure EmuBackend where
  getBlockByHeight : Nat → Option GBlock
  getEventsForBlockID : String → Nat → List GoBlockEvents

/-- flow.BlockEvents as assembled by getBlockEvent. -/
structure BlockEvents where
  blockID : Nat
  height : Nat
  blockTimestamp : Nat
  events : List Nat
deriving DecidableEq, Repr

/-- EmulatorGateway.getBlockEvent (part_001 lines 589-608): fetch the
block at the height (the discarded error means a nil block dereference,
modelled as none, when the height has no block), fetch the event batches
for its identifier, and return a BlockEvents whose Events list is empty
unless some returned batch carries the block's own identifier, in which
case that first matching batch's events are used. -/
def getBlockEvent (b : EmuBackend) (height : Nat) (eventType : String) :
    Option BlockEvents :=
  match b.getBlockByHeight height with
  | none => none
  | some block =>
    match (b.getEventsForBlockID eventType block.id).find?
        (fun e => e.blockID == block.id) with
    | some e => some ⟨block.id, block.height, block.timestamp, e.events⟩
    | none => some ⟨block.id, block.height, block.timestamp, []⟩

/-- The loop body of EmulatorGateway.GetEvents, counted by the number of
remaining heights: one getBlockEvent per height, appended in ascending
height order. -/
def emulatorGetEventsAux (b : EmuBackend) (eventType : String) :
    Nat → Nat → Option (List BlockEvents)
  | _, 0 => some []
  | height, Nat.succ n =>
    match getBlockEvent b height eventType with
    | none => none
    | some e =>
      match emulatorGetEventsAux b eventType (height + 1) n with
      | none => none
      | some rest => some (e :: rest)

/-- EmulatorGateway.GetEvents (part_001 lines 575-587): iterates height
from startHeight to endHeight inclusive, appending one entry per height;
an empty range yields the empty list. -/
def emulatorGetEvents (b : EmuBackend) (eventType : String)
    (startHeight endHeight : Nat) : Option (List BlockEvents) :=
  emulatorGetEventsAux b eventType startHeight (endHeight + 1 - startHeight)

/-! Concrete fixtures used by counterexamples and witnesses. -/

/-- A transaction result that is still pending. -/
def pendingResult : TxResult := ⟨TxStatus.pending, none⟩

/-- An account named alice in the configuration. -/
def aliceAcc : ConfigAccount := ⟨"alice", 1⟩

/-- An account named bob in the configuration. -/
def bobAcc : ConfigAccount := ⟨"bob", 2⟩

/-- A network whose only account has one key with sequence number 7 and
whose latest sealed block has identifier 42. -/
def net0 : Network :=
  ⟨fun _ => .ok ⟨1, [⟨0, 7⟩]⟩, .ok ⟨42⟩⟩

/-- A staged transaction whose gas limit was already set to 500 before
preparation. -/
def tx500 : Transaction :=
  { gasLimit := 500, refBlockID := 0, proposalKey := none,
    signerAddress := 1, signerKeyIndex := 0, proposerAddress := none }

/-- An emulator gateway holding one snapshot named snap with handle 7,
with live emulator handle 3. -/
def g0 : EmulatorGatewayState := ⟨[("snap", 7)], 3⟩

/-- The transaction tx500 as prepared against net0: reference block 42,
gas limit overwritten to 1000, proposal key from the single key of the
fetched account. -/
def tx500After : Transaction :=
  { tx500 with refBlockID := 42, gasLimit := 1000, proposalKey := some (1, 0, 7) }

/-- C1: the remote GetTransactionResult with waitUntilSealed has no
cancellation exit.  On a trace of n pending poll responses it consumes
every one of the n polls and still has not returned, for every n: the
recursion (grpc.go lines 135-138) re-checks no external cancellation
signal between attempts -- it takes none -- so cancellation after any
number of attempts neither stops the polling nor produces a cancellation
error. -/
theorem claim_C1_polls_despite_cancellation (n : Nat) :
    grpcGetTransactionResult true (List.replicate n (.ok pendingResult)) = none ∧
    grpcPollCount true (List.replicate n (.ok pendingResult)) = n := by
  induction n with
  | zero => exact ⟨rfl, rfl⟩
  | succ k ih =>
    rw [List.replicate_succ]
    refine ⟨?_, ?_⟩
    · simpa [grpcGetTransactionResult, pendingResult] using ih.1
    · have hstep :
          grpcPollCount true
            (.ok pendingResult :: List.replicate k (.ok pendingResult)) =
          1 + grpcPollCount true (List.replicate k (.ok pendingResult)) := by
        simp [grpcPollCount, pendingResult]
      rw [hstep, ih.2]
      omega

/-- C3: evaluated on the failing input.  With signer alice set together
with payer bob in the send command's own flags (and both accounts
present in the configuration), role resolution succeeds with the
single-signer assignment instead of failing with the role-conflict
error, because send.go line 79 reads the payer name from the build
command's flags; the second conjunct shows the conflict check does fire
for an authorizer supplied through the send flags. -/
theorem claim_C3_observed :
    send ⟨"alice", "", "bob", []⟩ ⟨""⟩ [aliceAcc, bobAcc] =
      .ok ⟨some aliceAcc, some aliceAcc, [aliceAcc]⟩ ∧
    send ⟨"alice", "", "", ["bob"]⟩ ⟨""⟩ [aliceAcc, bobAcc] =
      .error SendError.roleConflict := by
  exact ⟨rfl, rfl⟩

/-- C4: with only the signer name set (no proposer, payer or authorizer
name anywhere, in particular none left in the build command's payer
flag), and the signer name resolving to account A, role resolution
returns proposer = A, payer = A and authorizers = [A]. -/
theorem claim_C4_signer_only (sf : FlagsSend) (bf : FlagsBuild)
    (accounts : List ConfigAccount) (A : ConfigAccount)
    (hp : sf.proposer = "") (hpay : sf.payer = "") (hbp : bf.payer = "")
    (ha : sf.autorizer = []) (hs : sf.signer ≠ "")
    (hA : byName accounts sf.signer = some A) :
    send sf bf accounts = .ok ⟨some A, some A, [A]⟩ := by
  simp [send, resolveOptional, resolveAuthorizers, hp, hbp, ha, hs, hA]

/-- Witness for C4 at a concrete input: signer alice, all other role
names empty, configuration containing alice. -/
theorem claim_C4_witness :
    send ⟨"alice", "", "", []⟩ ⟨""⟩ [aliceAcc] =
      .ok ⟨some aliceAcc, some aliceAcc, [aliceAcc]⟩ :=
  claim_C4_signer_only ⟨"alice", "", "", []⟩ ⟨""⟩ [aliceAcc] aliceAcc
    rfl rfl rfl rfl (by decide) rfl

/-- C9: evaluated on the failing input.  A payer name bob supplied
through the send command's flags, with no account named bob in the
configuration, is never looked up: resolution succeeds with no payer
instead of failing with the payer-not-found error, because send.go
line 79 reads buildFlags.Payer.  The second conjunct shows the lookup and
its role-naming error do run on the build command's payer flag value. -/
theorem claim_C9_observed :
    send ⟨"", "", "bob", []⟩ ⟨""⟩ [aliceAcc] = .ok ⟨none, none, []⟩ ∧
    send ⟨"", "", "", []⟩ ⟨"bob"⟩ [aliceAcc] =
      .error (SendError.payerNotFound "bob") := by
  exact ⟨rfl, rfl⟩

/-- C7: loading a snapshot name absent from the store returns an error
and leaves the gateway state, in particular the backend's emulator
handle, unchanged; loading a present name succeeds and installs the
stored handle. -/
theorem claim_C7_load_snapshot (g : EmulatorGatewayState) (name : String) :
    (snapshotLookup g.snapshots name = none →
      (loadSnapshot g name).1 =
        .error ("Could not find snapshot with name " ++ name) ∧
      (loadSnapshot g name).2 = g) ∧
    (∀ emu, snapshotLookup g.snapshots name = some emu →
      (loadSnapshot g name).1 = .ok () ∧
      (loadSnapshot g name).2 = { g with backendEmulator := emu }) := by
  constructor
  · intro h
    simp [loadSnapshot, h]
  · intro emu h
    simp [loadSnapshot, h]

/-- Witness for C7: on a store holding only the name snap, loading the
absent name missing errs and leaves the state unchanged, and loading
snap succeeds. -/
theorem claim_C7_witness :
    ((loadSnapshot g0 "missing").1 =
        .error ("Could not find snapshot with name " ++ "missing") ∧
      (loadSnapshot g0 "missing").2 = g0) ∧
    ((loadSnapshot g0 "snap").1 = .ok () ∧
      (loadSnapshot g0 "snap").2 = { g0 with backendEmulator := 7 }) :=
  ⟨(claim_C7_load_snapshot g0 "missing").1 rfl,
   (claim_C7_load_snapshot g0 "snap").2 7 rfl⟩

/-- C8 counterexample: the remote gateway's GetTransaction returns the
backend-native gRPC status error unchanged to the caller (grpc.go
lines 124-126), so a backend-specific error value does leak across the
gateway boundary. -/
theorem claim_C8_counterexample :
    grpcGetTransaction (.error (.grpcStatus 5 "transaction not found")) =
      .error (.grpcStatus 5 "transaction not found") ∧
    containsBackendError (.grpcStatus 5 "transaction not found") = true :=
  ⟨rfl, rfl⟩

/-- C8 amended: the embedded gateway unwraps every backend error into a
flat message through UnwrapStatusError, whose output never contains a
backend-native error; the remote gateway does not follow this policy:
GetTransaction and GetTransactionResult return the client error
unchanged, and GetAccount wraps it with the native error kept chained
(a wrapping error contains a backend error exactly when its cause
does). -/
theorem claim_C8_amended :
    (∀ e, containsBackendError (UnwrapStatusError e) = false) ∧
    (∀ e, emulatorGetAccount (.error e) = .error (UnwrapStatusError e)) ∧
    (∀ (e : GoError) (w : Bool),
      emulatorGetTransactionResult (.error e) w = .error (UnwrapStatusError e)) ∧
    (∀ r, grpcGetTransaction r = r) ∧
    (∀ (w : Bool) (e : GoError) rest,
      grpcGetTransactionResult w (.error e :: rest) = some (.error e)) ∧
    (∀ e a, grpcGetAccount (.error e) a =
      .error (.wrap ("failed to get account with address " ++ toString a) e)) ∧
    (∀ m e, containsBackendError (.wrap m e) = containsBackendError e) :=
  ⟨fun _ => rfl, fun _ => rfl, fun _ _ => rfl, fun _ => rfl,
   fun _ _ _ => rfl, fun _ _ => rfl, fun _ _ => rfl⟩

/-- C5 counterexample: the embedded gateway's GetTransactionResult with
waitUntilSealed set to true returns, without error, whatever status the
backend reports -- here an executed, not sealed, result -- because the
waitSeal parameter is never read (part_001 lines 476-482). -/
theorem claim_C5_counterexample :
    emulatorGetTransactionResult (.ok ⟨TxStatus.executed, none⟩) true =
      .ok ⟨TxStatus.executed, none⟩ ∧
    TxStatus.executed ≠ TxStatus.sealed :=
  ⟨rfl, by decide⟩

/-- C5 amended: the remote gateway's GetTransactionResult with
waitUntilSealed true returns a result without error only when that
result's status is sealed, polling again on any non-sealed status; the
embedded gateway ignores waitUntilSealed and returns the backend result
after error unwrapping, whatever its status. -/
theorem claim_C5_amended :
    (∀ polls r, grpcGetTransactionResult true polls = some (.ok r) →
      r.status = TxStatus.sealed) ∧
    (∀ (res : Except GoError TxResult) (w : Bool),
      emulatorGetTransactionResult res w = res.mapError UnwrapStatusError) := by
  constructor
  · intro polls
    induction polls with
    | nil =>
      intro r h
      simp [grpcGetTransactionResult] at h
    | cons head rest ih =>
      intro r h
      cases head with
      | error e => simp [grpcGetTransactionResult] at h
      | ok x =>
        by_cases hx : x.status = TxStatus.sealed
        · have hstep : grpcGetTransactionResult true (.ok x :: rest) =
              some (.ok x) := by
            simp [grpcGetTransactionResult, hx]
          rw [hstep] at h
          simp at h
          rw [← h]
          exact hx
        · have hstep : grpcGetTransactionResult true (.ok x :: rest) =
              grpcGetTransactionResult true rest := by
            simp [grpcGetTransactionResult, hx]
          rw [hstep] at h
          exact ih r h
  · intro res w
    cases res with
    | error e => rfl
    | ok r => rfl

/-- Witness for C5: on a trace whose first poll already reports a sealed
result, the remote gateway returns it and the theorem yields that its
status is sealed; the embedded side is instantiated at a concrete
backend error. -/
theorem claim_C5_witness :
    (⟨TxStatus.sealed, none⟩ : TxResult).status = TxStatus.sealed ∧
    emulatorGetTransactionResult (.error (.grpcStatus 2 "engine failure")) false =
      (Except.error (.grpcStatus 2 "engine failure")).mapError UnwrapStatusError :=
  ⟨claim_C5_amended.1 [.ok ⟨TxStatus.sealed, none⟩] ⟨TxStatus.sealed, none⟩ rfl,
   claim_C5_amended.2 (.error (.grpcStatus 2 "engine failure")) false⟩

/-- C2 counterexample: preparing a transaction whose gas limit was
already set to 500 overwrites it with the fixed default 1000 (grpc.go
line 90 calls SetGasLimit(defaultGasLimit) unconditionally), so a
pre-set gas limit does not survive preparation. -/
theorem claim_C2_counterexample :
    tx500.gasLimit = 500 ∧
    prepareTransactionPayload net0 tx500 = some (.ok tx500After) ∧
    tx500After.gasLimit = 1000 ∧ (1000 : Nat) ≠ 500 :=
  ⟨rfl, rfl, rfl, by decide⟩

/-- C2 amended: whenever preparation returns a transaction, its
reference block identifier is the latest sealed block header's
identifier and its gas limit is the fixed default, applied
unconditionally -- a transaction whose gas limit was already set has it
overwritten. -/
theorem claim_C2_amended (net : Network) (tx tx' : Transaction)
    (h : prepareTransactionPayload net tx = some (.ok tx')) :
    tx'.gasLimit = defaultGasLimit ∧
    ∃ hdr, net.getLatestSealedHeader = .ok hdr ∧ tx'.refBlockID = hdr.id := by
  unfold prepareTransactionPayload at h
  split at h
  · simp at h
  · split at h
    · simp at h
    · split at h
      · simp at h
      · rename_i sealed hsealed
        simp at h
        rw [← h]
        exact ⟨rfl, sealed, hsealed, rfl⟩

/-- Witness for C2 amended at the concrete network and transaction of
the counterexample fixture. -/
theorem claim_C2_witness :
    tx500After.gasLimit = defaultGasLimit ∧
    ∃ hdr, net0.getLatestSealedHeader = .ok hdr ∧ tx500After.refBlockID = hdr.id :=
  claim_C2_amended net0 tx500 tx500After rfl

/-- C10: preparation indexes the fetched proposer account's key list
with the signer's default key index (grpc.go line 81).  When that index
is within the key list the result's proposal key carries the index and
sequence number of the proposer's key at the signer's index; when the
proposer has no key at the signer's index the slice indexing is out of
range and the operation is not well-defined (a Go runtime panic,
modelled as none). -/
theorem claim_C10_proposal_key_indexing (net : Network) (tx : Transaction)
    (acct : FetchedAccount)
    (h1 : net.getAccount (proposalAddress tx) = .ok acct) :
    (∀ (hlt : tx.signerKeyIndex < acct.keys.length) (hdr : BlockHeader),
      net.getLatestSealedHeader = .ok hdr →
      prepareTransactionPayload net tx =
        some (.ok { tx with
          refBlockID := hdr.id
          gasLimit := defaultGasLimit
          proposalKey := some (proposalAddress tx,
            acct.keys[tx.signerKeyIndex].index,
            acct.keys[tx.signerKeyIndex].seqNum) })) ∧
    (acct.keys.length ≤ tx.signerKeyIndex →
      prepareTransactionPayload net tx = none) := by
  constructor
  · intro hlt hdr hhdr
    have hget : acct.keys[tx.signerKeyIndex]? =
        some acct.keys[tx.signerKeyIndex] := List.getElem?_eq_getElem hlt
    unfold prepareTransactionPayload
    rw [h1]
    simp [grpcGetAccount, hget, hhdr]
  · intro hge
    have hget : acct.keys[tx.signerKeyIndex]? = none :=
      List.getElem?_eq_none hge
    unfold prepareTransactionPayload
    rw [h1]
    simp [grpcGetAccount, hget]

/-- Witness for C10: against net0, whose account has exactly one key
with sequence number 7, a signer key index of 0 is in range and yields
proposal key (1, 0, 7); the second conjunct of the theorem applies to a
transaction whose signer key index 1 is out of range, where preparation
is undefined. -/
theorem claim_C10_witness :
    prepareTransactionPayload net0 tx500 = some (.ok tx500After) ∧
    prepareTransactionPayload net0 { tx500 with signerKeyIndex := 1 } = none :=
  ⟨by
    have h := (claim_C10_proposal_key_indexing net0 tx500 ⟨1, [⟨0, 7⟩]⟩ rfl).1
      (by decide) ⟨42⟩ rfl
    exact h,
   (claim_C10_proposal_key_indexing net0 { tx500 with signerKeyIndex := 1 }
      ⟨1, [⟨0, 7⟩]⟩ rfl).2 (by decide)⟩

/-- A backend with blocks at heights 0 through 5 (block identifier ten
times the height) and no events at all. -/
def b0 : EmuBackend :=
  ⟨fun h => if h ≤ 5 then some ⟨10 * h, h, 0⟩ else none, fun _ _ => []⟩

/-- Helper: when the backend has a block at the queried height,
getBlockEvent returns one entry carrying the block's height and
identifier, with an empty event list when no returned batch matches the
block identifier and the first matching batch's events otherwise. -/
theorem getBlockEvent_spec (b : EmuBackend) (h : Nat) (ty : String)
    (blk : GBlock) (hb : b.getBlockByHeight h = some blk) :
    ∃ be, getBlockEvent b h ty = some be ∧
      be.height = blk.height ∧ be.blockID = blk.id ∧
      ((b.getEventsForBlockID ty blk.id).find?
          (fun ev => ev.blockID == blk.id) = none → be.events = []) ∧
      (∀ batch, (b.getEventsForBlockID ty blk.id).find?
          (fun ev => ev.blockID == blk.id) = some batch →
        be.events = batch.events) := by
  cases hfind : (b.getEventsForBlockID ty blk.id).find?
      (fun ev => ev.blockID == blk.id) with
  | none =>
    have hval : getBlockEvent b h ty =
        some ⟨blk.id, blk.height, blk.timestamp, []⟩ := by
      simp [getBlockEvent, hb, hfind]
    refine ⟨_, hval, rfl, rfl, fun _ => rfl, ?_⟩
    intro batch hbatch
    exact Option.noConfusion hbatch
  | some e0 =>
    have hval : getBlockEvent b h ty =
        some ⟨blk.id, blk.height, blk.timestamp, e0.events⟩ := by
      simp [getBlockEvent, hb, hfind]
    refine ⟨_, hval, rfl, rfl, ?_, ?_⟩
    · intro hnone
      exact Option.noConfusion hnone
    · intro batch hbatch
      cases hbatch
      rfl

/-- Helper: the loop of GetEvents produces, for any window of n heights
starting at h0 all of which carry a block, a list of exactly n entries in
ascending height order with the per-entry event-list properties of
getBlockEvent. -/
theorem emulatorGetEventsAux_spec (b : EmuBackend) (ty : String) :
    ∀ (n h0 : Nat),
    (∀ h, h0 ≤ h → h < h0 + n →
      ∃ blk, b.getBlockByHeight h = some blk ∧ blk.height = h) →
    ∃ l, emulatorGetEventsAux b ty h0 n = some l ∧ l.length = n ∧
      ∀ (i : Nat) (hi : i < l.length),
        (l.get ⟨i, hi⟩).height = h0 + i ∧
        ((b.getEventsForBlockID ty (l.get ⟨i, hi⟩).blockID).find?
            (fun ev => ev.blockID == (l.get ⟨i, hi⟩).blockID) = none →
          (l.get ⟨i, hi⟩).events = []) ∧
        (∀ batch, (b.getEventsForBlockID ty (l.get ⟨i, hi⟩).blockID).find?
            (fun ev => ev.blockID == (l.get ⟨i, hi⟩).blockID) = some batch →
          (l.get ⟨i, hi⟩).events = batch.events) := by
  intro n
  induction n with
  | zero =>
    intro h0 _
    exact ⟨[], rfl, rfl, fun i hi => absurd hi (by simp)⟩
  | succ k ih =>
    intro h0 hblocks
    obtain ⟨blk, hblk, hheight⟩ := hblocks h0 (Nat.le_refl h0) (by omega)
    obtain ⟨be, hbe, hbeh, hbeid, hbenone, hbesome⟩ :=
      getBlockEvent_spec b h0 ty blk hblk
    obtain ⟨rest, hrest, hlen, hprops⟩ :=
      ih (h0 + 1) (fun h hge hlt => hblocks h (by omega) (by omega))
    refine ⟨be :: rest, ?_, by simp [hlen], ?_⟩
    · simp [emulatorGetEventsAux, hbe, hrest]
    · intro i hi
      cases i with
      | zero =>
        refine ⟨?_, ?_, ?_⟩
        · show be.height = h0 + 0
          rw [hbeh, hheight]
          omega
        · show (b.getEventsForBlockID ty be.blockID).find?
              (fun ev => ev.blockID == be.blockID) = none → be.events = []
          simp only [hbeid]
          exact hbenone
        · show ∀ batch, (b.getEventsForBlockID ty be.blockID).find?
              (fun ev => ev.blockID == be.blockID) = some batch →
            be.events = batch.events
          simp only [hbeid]
          exact hbesome
      | succ j =>
        have hj : j < rest.length := by
          simp only [List.length_cons] at hi
          omega
        obtain ⟨hh, hn, hs⟩ := hprops j hj
        refine ⟨?_, ?_, ?_⟩
        · show (rest.get ⟨j, hj⟩).height = h0 + (j + 1)
          rw [hh]
          omega
        · exact hn
        · exact hs

/-- C6: on every height range with startHeight at most endHeight all of
whose heights carry a block, the embedded GetEvents returns exactly one
entry per height in the range, in ascending height order (entry i sits
at height startHeight + i), and an entry whose block has no matching
event batch carries an empty, not absent, event list; a range of one
height therefore yields one entry, not zero. -/
theorem claim_C6_events_per_height (b : EmuBackend) (ty : String)
    (s e : Nat) (hse : s ≤ e)
    (hblocks : ∀ h, s ≤ h → h ≤ e →
      ∃ blk, b.getBlockByHeight h = some blk ∧ blk.height = h) :
    ∃ l, emulatorGetEvents b ty s e = some l ∧ l.length = e + 1 - s ∧
      ∀ (i : Nat) (hi : i < l.length),
        (l.get ⟨i, hi⟩).height = s + i ∧
        ((b.getEventsForBlockID ty (l.get ⟨i, hi⟩).blockID).find?
            (fun ev => ev.blockID == (l.get ⟨i, hi⟩).blockID) = none →
          (l.get ⟨i, hi⟩).events = []) ∧
        (∀ batch, (b.getEventsForBlockID ty (l.get ⟨i, hi⟩).blockID).find?
            (fun ev => ev.blockID == (l.get ⟨i, hi⟩).blockID) = some batch →
          (l.get ⟨i, hi⟩).events = batch.events) :=
  emulatorGetEventsAux_spec b ty (e + 1 - s) s
    (fun h hge hlt => hblocks h hge (by omega))

/-- Witness for C6: on backend b0, which has a block at every height up
to 5 and no events anywhere, GetEvents over the one-height range [2, 2]
returns exactly one entry, at height 2, with an empty event list
guaranteed by the no-matching-batch clause. -/
theorem claim_C6_witness :
    ∃ l, emulatorGetEvents b0 "flow.AccountCreated" 2 2 = some l ∧
      l.length = 2 + 1 - 2 ∧
      ∀ (i : Nat) (hi : i < l.length),
        (l.get ⟨i, hi⟩).height = 2 + i ∧
        ((b0.getEventsForBlockID "flow.AccountCreated"
            (l.get ⟨i, hi⟩).blockID).find?
            (fun ev => ev.blockID == (l.get ⟨i, hi⟩).blockID) = none →
          (l.get ⟨i, hi⟩).events = []) ∧
        (∀ batch, (b0.getEventsForBlockID "flow.AccountCreated"
            (l.get ⟨i, hi⟩).blockID).find?
            (fun ev => ev.blockID == (l.get ⟨i, hi⟩).blockID) = some batch →
          (l.get ⟨i, hi⟩).events = batch.events) := by
  refine claim_C6_events_per_height b0 "flow.AccountCreated" 2 2
    (by decide) ?_
  intro h h1 h2
  refine ⟨⟨10 * h, h, 0⟩, ?_, rfl⟩
  show b0.getBlockByHeight h = some ⟨10 * h, h, 0⟩
  simp only [b0]
  rw [if_pos (by omega)]

end FlowCLI
